import Mathlib

/-
Verification of the long-polling client in longpoll/longpoll.go.

The poll loop (Client.pollLoop) is embedded as a fuel-indexed interpreter
over a per-iteration environment describing what the outside world does at
each loop iteration: the observable state of the cancellation signal at each
of the three checkpoints, the outcome the HTTP transport produces, and the
handler's continuation directive.  The interpreter additionally produces an
event trace recording every network request issued (with its URL), every
handler invocation, and every response-body Close call, so that claims about
attempt counts, targeted addresses and resource release are stated over the
trace.
-/

namespace Longpoll

/-- An HTTP response as seen by pollLoop: the status code and the body
contents (the body stream is modelled as the string it would read to). -/
structure Response where
  statusCode : Int
  body : String
deriving Repr, DecidableEq

/-- The result of httpClient.Do inside makeRequest: either a transport-level
error or a response. -/
inductive DoResult where
  | err (msg : String)
  | ok (resp : Response)
deriving Repr, DecidableEq

/-- The ResponseHandler return value (nextURL, shouldContinue, err); Go nil
error is none. -/
structure HandlerOut where
  nextURL : String
  shouldContinue : Bool
  err : Option String
deriving Repr, DecidableEq

/-- What the environment does during one iteration of pollLoop:
the cancellation signal observed at the top-of-loop select, the body-builder
and request-construction outcomes, the transport outcome, the handler's
directive as a function of the response it is given, and the cancellation
signal observed during the retry-delay select and the bottom-of-loop select.
The handler is indexed per iteration so stateful (closure) handlers are
covered. -/
structure IterEnv where
  cancelledAtTop : Bool
  buildErr : Option String
  newReqErr : Option String
  doResult : DoResult
  handlerOut : Response → HandlerOut
  cancelledInSleep : Bool
  cancelledAtBottom : Bool

/-- Observable events of a run: a network request issued to a URL
(httpClient.Do), a handler invocation, and a resp.Body.Close call. -/
inductive Event where
  | request (url : String)
  | handlerCall (resp : Response)
  | bodyClose (resp : Response)
deriving Repr, DecidableEq

/-- The error pollLoop can return: ctx.Err() on cancellation,
"max retries exceeded: %w", or "handler error: %w". -/
inductive PollError where
  | ctxErr
  | maxRetriesExceeded (wrapped : String)
  | handlerError (wrapped : String)
deriving Repr, DecidableEq

/-- pollLoop's return value: nil (handler requested stop) or an error. -/
inductive PollOutcome where
  | ok
  | error (e : PollError)
deriving Repr, DecidableEq

/-- Client.makeRequest: builds the body (BodyBuilder), constructs the
request, executes it, and turns a non-2xx status into an error that captures
the response body, closing that body first.  Returns the Go (resp, err)
result together with the events it emits: a request event when
httpClient.Do runs, and a bodyClose event on the non-2xx path.  Header
injection and Content-Type defaulting are not observable in this model and
are omitted. -/
def makeRequest (e : IterEnv) (url : String) : Except String Response × List Event :=
  match e.buildErr with
  | some msg => (.error ("build request body: " ++ msg), [])
  | none =>
  match e.newReqErr with
  | some msg => (.error ("create request: " ++ msg), [])
  | none =>
  match e.doResult with
  | .err msg => (.error ("http request: " ++ msg), [.request url])
  | .ok resp =>
    if resp.statusCode < 200 ∨ 300 ≤ resp.statusCode then
      (.error ("http error " ++ toString resp.statusCode ++ ": " ++ resp.body),
        [.request url, .bodyClose resp])
    else
      (.ok resp, [.request url])

/-- Client.pollLoop as a fuel-indexed interpreter.  `maxRetries` is the Go
int c.config.MaxRetries (negative means unlimited); `i` indexes the current
iteration into the environment; `retries` and `currentURL` are the loop's
local state.  Returns none when the fuel runs out with the loop still
running, together with the events emitted so far.  Each branch mirrors the
Go source: top-of-loop non-blocking ctx check; makeRequest; on error the
budget check (MaxRetries >= 0 && retries >= MaxRetries), retries++, the
retry-delay select racing ctx.Done against the timer, and continue with the
same URL; on success retries = 0, the handler call, Body.Close on both
handler paths, the nextURL update when non-empty, the shouldContinue check,
and the bottom non-blocking ctx check. -/
def pollLoop (maxRetries : Int) (env : Nat → IterEnv) :
    Nat → Nat → Nat → String → Option PollOutcome × List Event
  | 0, _, _, _ => (none, [])
  | fuel + 1, i, retries, currentURL =>
    let e := env i
    if e.cancelledAtTop then (some (.error .ctxErr), [])
    else
      let mr := makeRequest e currentURL
      match mr.1 with
      | .error msg =>
        if 0 ≤ maxRetries ∧ (retries : Int) ≥ maxRetries then
          (some (.error (.maxRetriesExceeded msg)), mr.2)
        else if e.cancelledInSleep then
          (some (.error .ctxErr), mr.2)
        else
          let rest := pollLoop maxRetries env fuel (i + 1) (retries + 1) currentURL
          (rest.1, mr.2 ++ rest.2)
      | .ok resp =>
        let h := e.handlerOut resp
        match h.err with
        | some msg =>
          (some (.error (.handlerError msg)), mr.2 ++ [.handlerCall resp, .bodyClose resp])
        | none =>
          let nextU := if h.nextURL ≠ "" then h.nextURL else currentURL
          if !h.shouldContinue then
            (some .ok, mr.2 ++ [.handlerCall resp, .bodyClose resp])
          else if e.cancelledAtBottom then
            (some (.error .ctxErr), mr.2 ++ [.handlerCall resp, .bodyClose resp])
          else
            let rest := pollLoop maxRetries env fuel (i + 1) 0 nextU
            (rest.1, mr.2 ++ [.handlerCall resp, .bodyClose resp] ++ rest.2)

/-- The URLs of the network requests in a trace, in order. -/
def requestURLs : List Event → List String
  | [] => []
  | .request u :: rest => u :: requestURLs rest
  | .handlerCall _ :: rest => requestURLs rest
  | .bodyClose _ :: rest => requestURLs rest

/-- Environment of an iteration whose exchange fails at the transport level
with message msg and where no cancellation fires. -/
def failEnv (msg : String) : IterEnv where
  cancelledAtTop := false
  buildErr := none
  newReqErr := none
  doResult := .err msg
  handlerOut := fun _ => ⟨"", false, none⟩
  cancelledInSleep := false
  cancelledAtBottom := false

/-- Environment of an iteration whose exchange yields response resp and
whose handler returns directive h, with no cancellation firing. -/
def succEnv (resp : Response) (h : HandlerOut) : IterEnv where
  cancelledAtTop := false
  buildErr := none
  newReqErr := none
  doResult := .ok resp
  handlerOut := fun _ => h
  cancelledInSleep := false
  cancelledAtBottom := false

/-- The Config record, restricted to the fields NewWithConfig inspects or
normalizes.  Durations are nanosecond counts (Go time.Duration); the HTTP
client is modelled by its Timeout field, none standing for a nil
*http.Client; Headers is none for a nil map.  Logger, Method strings and
BodyBuilder functions pass through NewWithConfig unchanged except for the
Method default, so only Method is kept of those. -/
structure GoConfig where
  pollTimeout : Int
  retryDelay : Int
  maxRetries : Int
  httpClientTimeout : Option Int
  method : String
  headers : Option (List (String × String))
deriving Repr, DecidableEq

/-- NewWithConfig's normalization of the configuration: defaults the poll
timeout to 60s, the retry delay to 1s, MaxRetries 0 to -1 (unlimited), the
method to GET, creates the HTTP client (or defaults its zero Timeout) and
replaces a nil Headers map with an empty one. -/
def newWithConfig (cfg : GoConfig) : GoConfig :=
  let pollTimeout := if cfg.pollTimeout = 0 then 60 * 1000000000 else cfg.pollTimeout
  let retryDelay := if cfg.retryDelay = 0 then 1000000000 else cfg.retryDelay
  let maxRetries := if cfg.maxRetries = 0 then -1 else cfg.maxRetries
  let method := if cfg.method = "" then "GET" else cfg.method
  let httpClientTimeout :=
    match cfg.httpClientTimeout with
    | none => some pollTimeout
    | some t => if t = 0 then some pollTimeout else some t
  let headers :=
    match cfg.headers with
    | none => some []
    | some hs => some hs
  { pollTimeout := pollTimeout, retryDelay := retryDelay, maxRetries := maxRetries,
    httpClientTimeout := httpClientTimeout, method := method, headers := headers }

/-- The client's session registry: the key set of the active map
(map[*pollContext]struct).  Session identities are modelled as naturals. -/
structure ClientState where
  active : Finset Nat
deriving DecidableEq

/-- The registry of a freshly constructed client: make(map[*pollContext]struct). -/
def emptyClient : ClientState := ⟨∅⟩

/-- Poll's registration step before entering the loop: c.active[pc] = struct. -/
def registerSession (c : ClientState) (pc : Nat) : ClientState :=
  ⟨insert pc c.active⟩

/-- Poll's deferred deregistration when the loop returns: delete(c.active, pc). -/
def deregisterSession (c : ClientState) (pc : Nat) : ClientState :=
  ⟨c.active.erase pc⟩

/-- Client.ActiveCount: len(c.active). -/
def activeCount (c : ClientState) : Nat := c.active.card

/-- The registry state after the sessions in started have registered and
those in returned have (in addition) returned and deregistered. -/
def registryAfter (started returned : List Nat) : ClientState :=
  returned.foldl deregisterSession (started.foldl registerSession emptyClient)

/-- The guaranteed-release discipline on a trace: every handler invocation
is immediately followed by the Close of the same response's body. -/
def handlerFollowedByClose : List Event → Bool
  | [] => true
  | .handlerCall r :: .bodyClose r' :: rest =>
      if r = r' then handlerFollowedByClose rest else false
  | .handlerCall _ :: _ => false
  | .request _ :: rest => handlerFollowedByClose rest
  | .bodyClose _ :: rest => handlerFollowedByClose rest

/-- Environment of the counter-reset scenario: the exchange of iteration 0
fails, iteration 1 succeeds with a handler that continues at the same URL,
every later iteration fails again; no cancellation ever fires. -/
def resetScenarioEnv (m : Nat → String) (resp : Response) : Nat → IterEnv :=
  fun j => if j = 1 then succEnv resp ⟨"", true, none⟩ else failEnv (m j)

lemma requestURLs_append (a b : List Event) :
    requestURLs (a ++ b) = requestURLs a ++ requestURLs b := by
  induction a with
  | nil => rfl
  | cons e rest ih => cases e <;> simp [requestURLs, ih]

lemma makeRequest_ok_eq (e : IterEnv) (u : String) (resp : Response)
    (h : (makeRequest e u).1 = .ok resp) :
    makeRequest e u = (.ok resp, [.request u]) := by
  unfold makeRequest at h ⊢
  cases hb : e.buildErr with
  | some msg => simp [hb] at h
  | none =>
  cases hn : e.newReqErr with
  | some msg => simp [hb, hn] at h
  | none =>
  cases hd : e.doResult with
  | err msg => simp [hb, hn, hd] at h
  | ok r =>
    by_cases hst : r.statusCode < 200 ∨ 300 ≤ r.statusCode
    · simp [hb, hn, hd, hst] at h
    · simp [hb, hn, hd, hst] at h ⊢
      exact h

lemma makeRequest_head (e : IterEnv) (u : String)
    (hb : e.buildErr = none) (hn : e.newReqErr = none) :
    ∃ t, (makeRequest e u).2 = .request u :: t := by
  unfold makeRequest
  rw [hb, hn]
  cases hd : e.doResult with
  | err msg => exact ⟨[], rfl⟩
  | ok r =>
    by_cases hst : r.statusCode < 200 ∨ 300 ≤ r.statusCode
    · exact ⟨[.bodyClose r], by simp [hst]⟩
    · exact ⟨[], by simp [hst]⟩

/-- Top-of-loop checkpoint: a cancellation signal already triggered makes the
iteration return ctx.Err() before makeRequest runs (no events at all). -/
lemma pollLoop_cancelTop_step (maxR : Int) (env : Nat → IterEnv)
    (fuel i r : Nat) (u : String)
    (hc : (env i).cancelledAtTop = true) :
    pollLoop maxR env (fuel + 1) i r u = (some (.error .ctxErr), []) := by
  simp only [pollLoop, hc, if_true]

/-- Failure branch, budget exhausted: terminate wrapping the last error. -/
lemma pollLoop_exhaust_step (maxR : Int) (env : Nat → IterEnv)
    (fuel i r : Nat) (u msg : String)
    (hc : (env i).cancelledAtTop = false)
    (hm : (makeRequest (env i) u).1 = .error msg)
    (hb : 0 ≤ maxR ∧ (r : Int) ≥ maxR) :
    pollLoop maxR env (fuel + 1) i r u =
      (some (.error (.maxRetriesExceeded msg)), (makeRequest (env i) u).2) := by
  simp only [pollLoop, hc, Bool.false_eq_true, if_false, hm, if_pos hb]

/-- Failure branch, budget not exhausted, cancellation during the retry
sleep: return ctx.Err() instead of retrying. -/
lemma pollLoop_sleepCancel_step (maxR : Int) (env : Nat → IterEnv)
    (fuel i r : Nat) (u msg : String)
    (hc : (env i).cancelledAtTop = false)
    (hm : (makeRequest (env i) u).1 = .error msg)
    (hb : ¬(0 ≤ maxR ∧ (r : Int) ≥ maxR))
    (hs : (env i).cancelledInSleep = true) :
    pollLoop maxR env (fuel + 1) i r u =
      (some (.error .ctxErr), (makeRequest (env i) u).2) := by
  simp only [pollLoop, hc, Bool.false_eq_true, if_false, hm, if_neg hb, hs, if_true]

/-- Failure branch, budget not exhausted, sleep not interrupted: retry with
the incremented counter and the unchanged URL. -/
lemma pollLoop_fail_step (maxR : Int) (env : Nat → IterEnv)
    (fuel i r : Nat) (u msg : String)
    (hc : (env i).cancelledAtTop = false)
    (hm : (makeRequest (env i) u).1 = .error msg)
    (hb : ¬(0 ≤ maxR ∧ (r : Int) ≥ maxR))
    (hs : (env i).cancelledInSleep = false) :
    pollLoop maxR env (fuel + 1) i r u =
      ((pollLoop maxR env fuel (i + 1) (r + 1) u).1,
        (makeRequest (env i) u).2 ++ (pollLoop maxR env fuel (i + 1) (r + 1) u).2) := by
  simp only [pollLoop, hc, Bool.false_eq_true, if_false, hm, if_neg hb, hs]

/-- Success branch, handler error: Body.Close after the handler, terminate
with the wrapped handler error whatever the other directive fields say. -/
lemma pollLoop_handlerErr_step (maxR : Int) (env : Nat → IterEnv)
    (fuel i r : Nat) (u : String) (resp : Response) (nu : String) (sc : Bool)
    (msg : String)
    (hc : (env i).cancelledAtTop = false)
    (hm : (makeRequest (env i) u).1 = .ok resp)
    (hh : (env i).handlerOut resp = ⟨nu, sc, some msg⟩) :
    pollLoop maxR env (fuel + 1) i r u =
      (some (.error (.handlerError msg)),
        (makeRequest (env i) u).2 ++ [.handlerCall resp, .bodyClose resp]) := by
  simp only [pollLoop, hc, Bool.false_eq_true, if_false, hm, hh]

/-- Success branch, handler requests stop: Body.Close then return nil. -/
lemma pollLoop_stop_step (maxR : Int) (env : Nat → IterEnv)
    (fuel i r : Nat) (u : String) (resp : Response) (nu : String)
    (hc : (env i).cancelledAtTop = false)
    (hm : (makeRequest (env i) u).1 = .ok resp)
    (hh : (env i).handlerOut resp = ⟨nu, false, none⟩) :
    pollLoop maxR env (fuel + 1) i r u =
      (some .ok, (makeRequest (env i) u).2 ++ [.handlerCall resp, .bodyClose resp]) := by
  simp only [pollLoop, hc, Bool.false_eq_true, if_false, hm, hh, Bool.not_false, if_true]

/-- Success branch, handler continues, bottom checkpoint clear: the loop
proceeds with the counter reset to 0 and the URL replaced by the handler's
nextURL when it is non-empty, kept otherwise. -/
lemma pollLoop_continue_step (maxR : Int) (env : Nat → IterEnv)
    (fuel i r : Nat) (u : String) (resp : Response) (nu : String)
    (hc : (env i).cancelledAtTop = false)
    (hm : (makeRequest (env i) u).1 = .ok resp)
    (hh : (env i).handlerOut resp = ⟨nu, true, none⟩)
    (hbot : (env i).cancelledAtBottom = false) :
    pollLoop maxR env (fuel + 1) i r u =
      ((pollLoop maxR env fuel (i + 1) 0 (if nu ≠ "" then nu else u)).1,
        (makeRequest (env i) u).2 ++ [.handlerCall resp, .bodyClose resp] ++
          (pollLoop maxR env fuel (i + 1) 0 (if nu ≠ "" then nu else u)).2) := by
  simp only [pollLoop, hc, Bool.false_eq_true, if_false, hm, hh, hbot, Bool.not_true]

/-- Success branch, handler continues, but the bottom-of-loop checkpoint
observes cancellation: return ctx.Err(). -/
lemma pollLoop_bottomCancel_step (maxR : Int) (env : Nat → IterEnv)
    (fuel i r : Nat) (u : String) (resp : Response) (nu : String)
    (hc : (env i).cancelledAtTop = false)
    (hm : (makeRequest (env i) u).1 = .ok resp)
    (hh : (env i).handlerOut resp = ⟨nu, true, none⟩)
    (hbot : (env i).cancelledAtBottom = true) :
    pollLoop maxR env (fuel + 1) i r u =
      (some (.error .ctxErr),
        (makeRequest (env i) u).2 ++ [.handlerCall resp, .bodyClose resp]) := by
  simp only [pollLoop, hc, Bool.false_eq_true, if_false, hm, hh, hbot, Bool.not_true, if_true]

/-- In a run where from iteration i0 on every exchange fails (each issuing
exactly one request, at URL u) and no cancellation fires, the loop with
finite budget N, starting at iteration i ≥ i0 with counter r where
r + k = N, terminates within k+1 further attempts with the retry-exhaustion
error wrapping the very last failure, makes exactly k+1 further requests all
at u, and has not yet returned after only k further iterations. -/
lemma pollLoop_allFail (N : Nat) (env : Nat → IterEnv) (m : Nat → String)
    (u : String) (i0 : Nat)
    (hc : ∀ j, i0 ≤ j → (env j).cancelledAtTop = false)
    (hs : ∀ j, i0 ≤ j → (env j).cancelledInSleep = false)
    (hm : ∀ j, i0 ≤ j → (makeRequest (env j) u).1 = .error (m j))
    (hr : ∀ j, i0 ≤ j → requestURLs (makeRequest (env j) u).2 = [u]) :
    ∀ k i r, i0 ≤ i → r + k = N →
      (pollLoop (N : Int) env (k + 1) i r u).1 =
          some (.error (.maxRetriesExceeded (m (i + k)))) ∧
        requestURLs (pollLoop (N : Int) env (k + 1) i r u).2 =
          List.replicate (k + 1) u ∧
        (pollLoop (N : Int) env k i r u).1 = none := by
  intro k
  induction k with
  | zero =>
    intro i r hi hrk
    have hb : (0 : Int) ≤ (N : Int) ∧ (r : Int) ≥ (N : Int) := by
      constructor <;> omega
    rw [pollLoop_exhaust_step (N : Int) env 0 i r u (m i) (hc i hi) (hm i hi) hb]
    refine ⟨rfl, ?_, rfl⟩
    simp [hr i hi]
  | succ k ih =>
    intro i r hi hrk
    have hb : ¬((0 : Int) ≤ (N : Int) ∧ (r : Int) ≥ (N : Int)) := by
      intro hco
      omega
    have hi1 : i0 ≤ i + 1 := Nat.le_succ_of_le hi
    have hrk1 : (r + 1) + k = N := by omega
    obtain ⟨ih1, ih2, ih3⟩ := ih (i + 1) (r + 1) hi1 hrk1
    have heq := pollLoop_fail_step (N : Int) env (k + 1) i r u (m i)
      (hc i hi) (hm i hi) hb (hs i hi)
    have heq' := pollLoop_fail_step (N : Int) env k i r u (m i)
      (hc i hi) (hm i hi) hb (hs i hi)
    have hidx : i + 1 + k = i + (k + 1) := by omega
    refine ⟨?_, ?_, ?_⟩
    · rw [heq]
      rw [hidx] at ih1
      exact ih1
    · rw [heq]
      simp only [requestURLs_append, hr i hi, ih2]
      simp [List.replicate_succ]
    · rw [heq']
      exact ih3

/-- The retry-budget check never fires for a negative MaxRetries: the loop
behaves identically for any two negative values (in particular any negative
value behaves as the documented sentinel -1). -/
lemma pollLoop_neg_irrel (m m' : Int) (hmlt : m < 0) (hmlt' : m' < 0)
    (env : Nat → IterEnv) :
    ∀ fuel i r u, pollLoop m env fuel i r u = pollLoop m' env fuel i r u := by
  intro fuel
  induction fuel with
  | zero => intro i r u; rfl
  | succ fuel ih =>
    intro i r u
    have h1 : ¬(0 ≤ m ∧ (r : Int) ≥ m) := by omega
    have h2 : ¬(0 ≤ m' ∧ (r : Int) ≥ m') := by omega
    by_cases hc : (env i).cancelledAtTop = true
    · rw [pollLoop_cancelTop_step m env fuel i r u hc,
        pollLoop_cancelTop_step m' env fuel i r u hc]
    · have hc' : (env i).cancelledAtTop = false := by
        simpa using hc
      cases hmr : (makeRequest (env i) u).1 with
      | error msg =>
        by_cases hsl : (env i).cancelledInSleep = true
        · rw [pollLoop_sleepCancel_step m env fuel i r u msg hc' hmr h1 hsl,
            pollLoop_sleepCancel_step m' env fuel i r u msg hc' hmr h2 hsl]
        · have hsl' : (env i).cancelledInSleep = false := by simpa using hsl
          rw [pollLoop_fail_step m env fuel i r u msg hc' hmr h1 hsl',
            pollLoop_fail_step m' env fuel i r u msg hc' hmr h2 hsl', ih]
      | ok resp =>
        rcases hho : (env i).handlerOut resp with ⟨nu, sc, herr⟩
        cases herr with
        | some msg =>
          rw [pollLoop_handlerErr_step m env fuel i r u resp nu sc msg hc' hmr hho,
            pollLoop_handlerErr_step m' env fuel i r u resp nu sc msg hc' hmr hho]
        | none =>
          cases sc with
          | false =>
            rw [pollLoop_stop_step m env fuel i r u resp nu hc' hmr hho,
              pollLoop_stop_step m' env fuel i r u resp nu hc' hmr hho]
          | true =>
            by_cases hbot : (env i).cancelledAtBottom = true
            · rw [pollLoop_bottomCancel_step m env fuel i r u resp nu hc' hmr hho hbot,
                pollLoop_bottomCancel_step m' env fuel i r u resp nu hc' hmr hho hbot]
            · have hbot' : (env i).cancelledAtBottom = false := by simpa using hbot
              rw [pollLoop_continue_step m env fuel i r u resp nu hc' hmr hho hbot',
                pollLoop_continue_step m' env fuel i r u resp nu hc' hmr hho hbot', ih]

/-- With a negative MaxRetries the loop can never return the
retry-exhaustion error: that return requires the budget check to fire. -/
lemma pollLoop_neg_no_exhaust (m : Int) (hmlt : m < 0) (env : Nat → IterEnv) :
    ∀ fuel i r u msg,
      (pollLoop m env fuel i r u).1 ≠ some (.error (.maxRetriesExceeded msg)) := by
  intro fuel
  induction fuel with
  | zero => intro i r u msg h; exact Option.noConfusion h
  | succ fuel ih =>
    intro i r u msg
    have h1 : ¬(0 ≤ m ∧ (r : Int) ≥ m) := by omega
    by_cases hc : (env i).cancelledAtTop = true
    · rw [pollLoop_cancelTop_step m env fuel i r u hc]
      simp
    · have hc' : (env i).cancelledAtTop = false := by simpa using hc
      cases hmr : (makeRequest (env i) u).1 with
      | error emsg =>
        by_cases hsl : (env i).cancelledInSleep = true
        · rw [pollLoop_sleepCancel_step m env fuel i r u emsg hc' hmr h1 hsl]
          simp
        · have hsl' : (env i).cancelledInSleep = false := by simpa using hsl
          rw [pollLoop_fail_step m env fuel i r u emsg hc' hmr h1 hsl']
          exact ih (i + 1) (r + 1) u msg
      | ok resp =>
        rcases hho : (env i).handlerOut resp with ⟨nu, sc, herr⟩
        cases herr with
        | some hmsg =>
          rw [pollLoop_handlerErr_step m env fuel i r u resp nu sc hmsg hc' hmr hho]
          simp
        | none =>
          cases sc with
          | false =>
            rw [pollLoop_stop_step m env fuel i r u resp nu hc' hmr hho]
            simp
          | true =>
            by_cases hbot : (env i).cancelledAtBottom = true
            · rw [pollLoop_bottomCancel_step m env fuel i r u resp nu hc' hmr hho hbot]
              simp
            · have hbot' : (env i).cancelledAtBottom = false := by simpa using hbot
              rw [pollLoop_continue_step m env fuel i r u resp nu hc' hmr hho hbot']
              exact ih (i + 1) 0 (if nu ≠ "" then nu else u) msg

lemma hfc_request (u : String) (l : List Event) :
    handlerFollowedByClose (.request u :: l) = handlerFollowedByClose l := by
  cases l with
  | nil => rfl
  | cons e t => cases e <;> rfl

lemma hfc_pair (r : Response) (l : List Event) :
    handlerFollowedByClose (.handlerCall r :: .bodyClose r :: l) =
      handlerFollowedByClose l := by
  simp [handlerFollowedByClose]

lemma hfc_makeRequest (e : IterEnv) (u : String) (l : List Event) :
    handlerFollowedByClose ((makeRequest e u).2 ++ l) = handlerFollowedByClose l := by
  unfold makeRequest
  cases hb : e.buildErr with
  | some msg => rfl
  | none =>
  cases hn : e.newReqErr with
  | some msg => rfl
  | none =>
  cases hd : e.doResult with
  | err msg => simp [hfc_request]
  | ok r =>
    by_cases hst : r.statusCode < 200 ∨ 300 ≤ r.statusCode
    · simp only [hst, if_true, List.cons_append, List.nil_append, hfc_request]
      cases l with
      | nil => rfl
      | cons e t => cases e <;> rfl
    · simp [hst, hfc_request]

/-- Every trace the loop can produce satisfies the release discipline. -/
lemma pollLoop_hfc (maxR : Int) (env : Nat → IterEnv) :
    ∀ fuel i r u,
      handlerFollowedByClose (pollLoop maxR env fuel i r u).2 = true := by
  intro fuel
  induction fuel with
  | zero => intro i r u; rfl
  | succ fuel ih =>
    intro i r u
    by_cases hc : (env i).cancelledAtTop = true
    · rw [pollLoop_cancelTop_step maxR env fuel i r u hc]
      rfl
    · have hc' : (env i).cancelledAtTop = false := by simpa using hc
      cases hmr : (makeRequest (env i) u).1 with
      | error msg =>
        by_cases hbud : 0 ≤ maxR ∧ (r : Int) ≥ maxR
        · rw [pollLoop_exhaust_step maxR env fuel i r u msg hc' hmr hbud]
          have := hfc_makeRequest (env i) u []
          simpa using this
        · by_cases hsl : (env i).cancelledInSleep = true
          · rw [pollLoop_sleepCancel_step maxR env fuel i r u msg hc' hmr hbud hsl]
            have := hfc_makeRequest (env i) u []
            simpa using this
          · have hsl' : (env i).cancelledInSleep = false := by simpa using hsl
            rw [pollLoop_fail_step maxR env fuel i r u msg hc' hmr hbud hsl']
            rw [hfc_makeRequest]
            exact ih (i + 1) (r + 1) u
      | ok resp =>
        have hmr' := makeRequest_ok_eq (env i) u resp hmr
        rcases hho : (env i).handlerOut resp with ⟨nu, sc, herr⟩
        cases herr with
        | some hmsg =>
          rw [pollLoop_handlerErr_step maxR env fuel i r u resp nu sc hmsg hc' hmr hho]
          simp [hmr', hfc_request, hfc_pair]
          rfl
        | none =>
          cases sc with
          | false =>
            rw [pollLoop_stop_step maxR env fuel i r u resp nu hc' hmr hho]
            simp [hmr', hfc_request, hfc_pair]
            rfl
          | true =>
            by_cases hbot : (env i).cancelledAtBottom = true
            · rw [pollLoop_bottomCancel_step maxR env fuel i r u resp nu hc' hmr hho hbot]
              simp [hmr', hfc_request, hfc_pair]
              rfl
            · have hbot' : (env i).cancelledAtBottom = false := by simpa using hbot
              rw [pollLoop_continue_step maxR env fuel i r u resp nu hc' hmr hho hbot']
              simp only [hmr', List.cons_append, List.nil_append, List.append_assoc]
              rw [hfc_request, hfc_pair]
              exact ih (i + 1) 0 (if nu ≠ "" then nu else u)

lemma foldl_register_active (l : List Nat) :
    ∀ c : ClientState, (l.foldl registerSession c).active = c.active ∪ l.toFinset := by
  induction l with
  | nil => intro c; simp
  | cons a t ih =>
    intro c
    simp only [List.foldl_cons, ih, registerSession, List.toFinset_cons]
    ext x
    simp


lemma foldl_deregister_active (l : List Nat) :
    ∀ c : ClientState, (l.foldl deregisterSession c).active = c.active \ l.toFinset := by
  induction l with
  | nil => intro c; simp
  | cons a t ih =>
    intro c
    simp only [List.foldl_cons, ih, deregisterSession, List.toFinset_cons]
    ext x
    simp [Finset.mem_erase]
    tauto

lemma registryAfter_active (started returned : List Nat) :
    (registryAfter started returned).active =
      started.toFinset \ returned.toFinset := by
  unfold registryAfter
  rw [foldl_deregister_active, foldl_register_active]
  simp [emptyClient]

/-- Whenever an iteration actually starts (top checkpoint clear), the
events of the run begin with the events of that iteration's makeRequest. -/
lemma pollLoop_events_head (maxR : Int) (env : Nat → IterEnv)
    (fuel i r : Nat) (u : String)
    (hc : (env i).cancelledAtTop = false) :
    ∃ t, (pollLoop maxR env (fuel + 1) i r u).2 = (makeRequest (env i) u).2 ++ t := by
  cases hmr : (makeRequest (env i) u).1 with
  | error msg =>
    by_cases hbud : 0 ≤ maxR ∧ (r : Int) ≥ maxR
    · rw [pollLoop_exhaust_step maxR env fuel i r u msg hc hmr hbud]
      exact ⟨[], by simp⟩
    · by_cases hsl : (env i).cancelledInSleep = true
      · rw [pollLoop_sleepCancel_step maxR env fuel i r u msg hc hmr hbud hsl]
        exact ⟨[], by simp⟩
      · have hsl' : (env i).cancelledInSleep = false := by simpa using hsl
        rw [pollLoop_fail_step maxR env fuel i r u msg hc hmr hbud hsl']
        exact ⟨(pollLoop maxR env fuel (i + 1) (r + 1) u).2, rfl⟩
  | ok resp =>
    rcases hho : (env i).handlerOut resp with ⟨nu, sc, herr⟩
    cases herr with
    | some hmsg =>
      rw [pollLoop_handlerErr_step maxR env fuel i r u resp nu sc hmsg hc hmr hho]
      exact ⟨[.handlerCall resp, .bodyClose resp], rfl⟩
    | none =>
      cases sc with
      | false =>
        rw [pollLoop_stop_step maxR env fuel i r u resp nu hc hmr hho]
        exact ⟨[.handlerCall resp, .bodyClose resp], rfl⟩
      | true =>
        by_cases hbot : (env i).cancelledAtBottom = true
        · rw [pollLoop_bottomCancel_step maxR env fuel i r u resp nu hc hmr hho hbot]
          exact ⟨[.handlerCall resp, .bodyClose resp], rfl⟩
        · have hbot' : (env i).cancelledAtBottom = false := by simpa using hbot
          rw [pollLoop_continue_step maxR env fuel i r u resp nu hc hmr hho hbot']
          exact ⟨[.handlerCall resp, .bodyClose resp] ++
            (pollLoop maxR env fuel (i + 1) 0 (if nu ≠ "" then nu else u)).2, by simp⟩

/-- makeRequest on a completed exchange with a status outside [200, 300):
the body is read into the error message, the body is closed (the close event
is emitted before the error is returned), and no response is produced. -/
lemma makeRequest_non2xx (e : IterEnv) (u : String) (resp : Response)
    (hd : e.doResult = .ok resp) (hb : e.buildErr = none)
    (hn : e.newReqErr = none)
    (hst : resp.statusCode < 200 ∨ 300 ≤ resp.statusCode) :
    makeRequest e u =
      (.error ("http error " ++ toString resp.statusCode ++ ": " ++ resp.body),
        [.request u, .bodyClose resp]) := by
  unfold makeRequest
  rw [hb, hn, hd]
  simp [hst]

example :
    pollLoop (0 : Int) (fun j => failEnv (toString j)) 1 0 0 "u" =
      (some (.error (.maxRetriesExceeded "http request: 0")), [.request "u"]) := by
  decide

example :
    pollLoop (2 : Int) (fun j => failEnv (toString j)) 3 0 0 "u" =
      (some (.error (.maxRetriesExceeded "http request: 2")),
        [.request "u", .request "u", .request "u"]) := by
  decide

example :
    pollLoop (-1 : Int) (fun j => failEnv (toString j)) 3 0 0 "u" =
      (none, [.request "u", .request "u", .request "u"]) := by
  decide

example :
    pollLoop (5 : Int)
      (fun _ => succEnv ⟨200, "b"⟩ ⟨"v", true, none⟩) 2 0 0 "u" =
      (none,
        [.request "u", .handlerCall ⟨200, "b"⟩, .bodyClose ⟨200, "b"⟩,
         .request "v", .handlerCall ⟨200, "b"⟩, .bodyClose ⟨200, "b"⟩]) := by
  decide

/-- C1: for every maximum-retry value N ≥ 0 the poll loop runs with, a
session whose every exchange fails terminates with the retry-exhaustion
error wrapping the last failure after exactly N+1 attempts: run for N+1
iterations it returns "max retries exceeded" wrapping the (N+1)-st failure
having issued exactly N+1 requests, and run for only N iterations it has
not yet returned (so termination is at attempt N+1, never N or N+2). -/
theorem pollLoop_retry_exhaustion (N : Nat) (env : Nat → IterEnv)
    (m : Nat → String) (u : String)
    (hc : ∀ j, (env j).cancelledAtTop = false)
    (hs : ∀ j, (env j).cancelledInSleep = false)
    (hm : ∀ j, (makeRequest (env j) u).1 = .error (m j))
    (hr : ∀ j, requestURLs (makeRequest (env j) u).2 = [u]) :
    (pollLoop (N : Int) env (N + 1) 0 0 u).1 =
        some (.error (.maxRetriesExceeded (m N))) ∧
      requestURLs (pollLoop (N : Int) env (N + 1) 0 0 u).2 =
        List.replicate (N + 1) u ∧
      (pollLoop (N : Int) env N 0 0 u).1 = none := by
  have h := pollLoop_allFail N env m u 0 (fun j _ => hc j) (fun j _ => hs j)
    (fun j _ => hm j) (fun j _ => hr j) N 0 0 (Nat.le_refl 0) (by omega)
  simpa using h

theorem pollLoop_retry_exhaustion_witness :
    (pollLoop ((2 : Nat) : Int) (fun j => failEnv (toString j)) 3 0 0 "u").1 =
        some (.error (.maxRetriesExceeded ("http request: " ++ toString 2))) ∧
      requestURLs (pollLoop ((2 : Nat) : Int) (fun j => failEnv (toString j)) 3 0 0 "u").2 =
        List.replicate 3 "u" ∧
      (pollLoop ((2 : Nat) : Int) (fun j => failEnv (toString j)) 2 0 0 "u").1 = none :=
  pollLoop_retry_exhaustion 2 (fun j => failEnv (toString j))
    (fun j => "http request: " ++ toString j) "u"
    (fun _ => rfl) (fun _ => rfl) (fun _ => rfl) (fun _ => rfl)

/-- C2: NewWithConfig silently coerces MaxRetries = 0 to -1 (unlimited), no
configuration it constructs carries a zero retry budget, and a negative
MaxRetries behaves as unlimited: the loop is the same function as with the
documented sentinel -1 and can never return the retry-exhaustion error. -/
theorem newWithConfig_zero_coerced (cfg : GoConfig) (m : Int)
    (env : Nat → IterEnv) (fuel i r : Nat) (u msg : String)
    (hcfg : cfg.maxRetries = 0) (hneg : m < 0) :
    (newWithConfig cfg).maxRetries = -1 ∧
      (∀ cfg2 : GoConfig, (newWithConfig cfg2).maxRetries ≠ 0) ∧
      pollLoop m env fuel i r u = pollLoop (-1) env fuel i r u ∧
      (pollLoop m env fuel i r u).1 ≠ some (.error (.maxRetriesExceeded msg)) := by
  refine ⟨?_, ?_, ?_, ?_⟩
  · simp [newWithConfig, hcfg]
  · intro cfg2
    by_cases h : cfg2.maxRetries = 0 <;> simp [newWithConfig, h]
  · exact pollLoop_neg_irrel m (-1) hneg (by norm_num) env fuel i r u
  · exact pollLoop_neg_no_exhaust m hneg env fuel i r u msg

theorem newWithConfig_zero_coerced_witness :
    (newWithConfig ⟨0, 0, 0, none, "", none⟩).maxRetries = -1 ∧
      (∀ cfg2 : GoConfig, (newWithConfig cfg2).maxRetries ≠ 0) ∧
      pollLoop (-5) (fun j => failEnv (toString j)) 2 0 0 "u" =
        pollLoop (-1) (fun j => failEnv (toString j)) 2 0 0 "u" ∧
      (pollLoop (-5) (fun j => failEnv (toString j)) 2 0 0 "u").1 ≠
        some (.error (.maxRetriesExceeded "boom")) :=
  newWithConfig_zero_coerced ⟨0, 0, 0, none, "", none⟩ (-5)
    (fun j => failEnv (toString j)) 2 0 0 "u" "boom" rfl (by norm_num)

/-- C4: a cancellation signal already triggered before an attempt makes the
loop return the context's error with an empty event trace — in particular no
request is issued; and a cancellation observed during the retry-delay sleep
after a failed attempt makes the loop return the context's error instead of
retrying (its trace stops at the failed attempt's events). -/
theorem pollLoop_cancellation (maxR : Int) (env1 env2 : Nat → IterEnv)
    (fuel1 fuel2 i1 i2 r1 r2 : Nat) (u1 u2 msg : String)
    (h1 : (env1 i1).cancelledAtTop = true)
    (h2c : (env2 i2).cancelledAtTop = false)
    (h2m : (makeRequest (env2 i2) u2).1 = .error msg)
    (h2b : ¬(0 ≤ maxR ∧ (r2 : Int) ≥ maxR))
    (h2s : (env2 i2).cancelledInSleep = true) :
    pollLoop maxR env1 (fuel1 + 1) i1 r1 u1 = (some (.error .ctxErr), []) ∧
      pollLoop maxR env2 (fuel2 + 1) i2 r2 u2 =
        (some (.error .ctxErr), (makeRequest (env2 i2) u2).2) :=
  ⟨pollLoop_cancelTop_step maxR env1 fuel1 i1 r1 u1 h1,
    pollLoop_sleepCancel_step maxR env2 fuel2 i2 r2 u2 msg h2c h2m h2b h2s⟩

theorem pollLoop_cancellation_witness :
    pollLoop (-1) (fun _ => { failEnv "e" with cancelledAtTop := true }) 1 0 0 "u" =
        (some (.error .ctxErr), []) ∧
      pollLoop (-1) (fun _ => { failEnv "e" with cancelledInSleep := true }) 1 0 0 "u" =
        (some (.error .ctxErr),
          (makeRequest ({ failEnv "e" with cancelledInSleep := true }) "u").2) :=
  pollLoop_cancellation (-1) (fun _ => { failEnv "e" with cancelledAtTop := true })
    (fun _ => { failEnv "e" with cancelledInSleep := true }) 0 0 0 0 0 0 "u" "u"
    "http request: e" rfl rfl rfl (by norm_num) rfl

/-- C5: whenever the handler returns a non-nil error, the loop closes the
body and terminates at once with that error wrapped as a handler error —
for every returned nextURL and shouldContinue value — and its whole trace is
the single attempt's request, the handler call and the body close: no
further attempt is made. -/
theorem pollLoop_handler_error_terminates (maxR : Int) (env : Nat → IterEnv)
    (fuel i r : Nat) (u : String) (resp : Response) (nu : String) (sc : Bool)
    (msg : String)
    (hc : (env i).cancelledAtTop = false)
    (hm : (makeRequest (env i) u).1 = .ok resp)
    (hh : (env i).handlerOut resp = ⟨nu, sc, some msg⟩) :
    pollLoop maxR env (fuel + 1) i r u =
      (some (.error (.handlerError msg)),
        [.request u, .handlerCall resp, .bodyClose resp]) := by
  rw [pollLoop_handlerErr_step maxR env fuel i r u resp nu sc msg hc hm hh,
    makeRequest_ok_eq (env i) u resp hm]
  rfl

theorem pollLoop_handler_error_terminates_witness :
    pollLoop (-1) (fun _ => succEnv ⟨204, "b"⟩ ⟨"other", true, some "reject"⟩) 5 0 0 "u" =
      (some (.error (.handlerError "reject")),
        [.request "u", .handlerCall ⟨204, "b"⟩, .bodyClose ⟨204, "b"⟩]) :=
  pollLoop_handler_error_terminates (-1)
    (fun _ => succEnv ⟨204, "b"⟩ ⟨"other", true, some "reject"⟩) 4 0 0 "u"
    ⟨204, "b"⟩ "other" true "reject" rfl (by simp [makeRequest, succEnv]) rfl

/-- C6: on a successful exchange whose handler returns no error and asks to
continue, the next attempt targets exactly the handler's nextURL when that
is non-empty and the unchanged current URL when it is empty: the first two
requests of the run go to u and to (if the returned nextURL is non-empty
then it, else u). -/
theorem pollLoop_next_address (maxR : Int) (env : Nat → IterEnv)
    (fuel i r : Nat) (u : String) (resp : Response) (nu : String)
    (hc : (env i).cancelledAtTop = false)
    (hm : (makeRequest (env i) u).1 = .ok resp)
    (hh : (env i).handlerOut resp = ⟨nu, true, none⟩)
    (hbot : (env i).cancelledAtBottom = false)
    (hc1 : (env (i + 1)).cancelledAtTop = false)
    (hb1 : (env (i + 1)).buildErr = none)
    (hn1 : (env (i + 1)).newReqErr = none) :
    (requestURLs (pollLoop maxR env (fuel + 2) i r u).2).take 2 =
      [u, if nu ≠ "" then nu else u] := by
  rw [pollLoop_continue_step maxR env (fuel + 1) i r u resp nu hc hm hh hbot]
  obtain ⟨t2, ht2⟩ :=
    pollLoop_events_head maxR env fuel (i + 1) 0 (if nu ≠ "" then nu else u) hc1
  obtain ⟨t, ht⟩ := makeRequest_head (env (i + 1)) (if nu ≠ "" then nu else u) hb1 hn1
  rw [makeRequest_ok_eq (env i) u resp hm]
  simp only [ht2, ht]
  simp [requestURLs_append, requestURLs]

theorem pollLoop_next_address_witness :
    (requestURLs (pollLoop (-1)
        (fun _ => succEnv ⟨200, "b"⟩ ⟨"v", true, none⟩) 2 0 0 "u").2).take 2 =
      [("u" : String), if ("v" : String) ≠ "" then "v" else "u"] :=
  pollLoop_next_address (-1) (fun _ => succEnv ⟨200, "b"⟩ ⟨"v", true, none⟩)
    0 0 0 "u" ⟨200, "b"⟩ "v" rfl (by simp [makeRequest, succEnv]) rfl rfl rfl rfl rfl

/-- C7: a failed attempt never changes the session's address — after a
failure that is retried, the retried attempt requests the very same URL as
the failed one: the first two requests of the run both go to u. -/
theorem pollLoop_retry_same_address (maxR : Int) (env : Nat → IterEnv)
    (fuel i r : Nat) (u msg : String)
    (hc : (env i).cancelledAtTop = false)
    (hm : (makeRequest (env i) u).1 = .error msg)
    (hru : requestURLs (makeRequest (env i) u).2 = [u])
    (hb : ¬(0 ≤ maxR ∧ (r : Int) ≥ maxR))
    (hs : (env i).cancelledInSleep = false)
    (hc1 : (env (i + 1)).cancelledAtTop = false)
    (hb1 : (env (i + 1)).buildErr = none)
    (hn1 : (env (i + 1)).newReqErr = none) :
    (requestURLs (pollLoop maxR env (fuel + 2) i r u).2).take 2 = [u, u] := by
  rw [pollLoop_fail_step maxR env (fuel + 1) i r u msg hc hm hb hs]
  obtain ⟨t2, ht2⟩ := pollLoop_events_head maxR env fuel (i + 1) (r + 1) u hc1
  obtain ⟨t, ht⟩ := makeRequest_head (env (i + 1)) u hb1 hn1
  simp only [ht2, ht]
  simp [requestURLs_append, hru, requestURLs]

theorem pollLoop_retry_same_address_witness :
    (requestURLs (pollLoop (-1) (fun _ => failEnv "e") 2 0 0 "u").2).take 2 =
      [("u" : String), "u"] :=
  pollLoop_retry_same_address (-1) (fun _ => failEnv "e") 0 0 0 "u"
    "http request: e" rfl rfl rfl (by norm_num) rfl rfl rfl rfl

/-- C9: an exchange completing with a status outside [200, 300) is an
attempt failure: makeRequest returns no response but an error that captures
the response body (closing the body), and the loop takes the retry branch —
the handler is not invoked on that response (the iteration's own events are
just the request and the body close) and the loop continues as a retry with
an incremented counter at the same URL. -/
theorem pollLoop_non2xx_is_failure (maxR : Int) (env : Nat → IterEnv)
    (fuel i r : Nat) (u : String) (resp : Response)
    (hst : resp.statusCode < 200 ∨ 300 ≤ resp.statusCode)
    (hd : (env i).doResult = .ok resp)
    (hb : (env i).buildErr = none)
    (hn : (env i).newReqErr = none)
    (hc : (env i).cancelledAtTop = false)
    (hs : (env i).cancelledInSleep = false)
    (hbud : ¬(0 ≤ maxR ∧ (r : Int) ≥ maxR)) :
    makeRequest (env i) u =
      (.error ("http error " ++ toString resp.statusCode ++ ": " ++ resp.body),
        [.request u, .bodyClose resp]) ∧
      pollLoop maxR env (fuel + 1) i r u =
        ((pollLoop maxR env fuel (i + 1) (r + 1) u).1,
          [.request u, .bodyClose resp] ++
            (pollLoop maxR env fuel (i + 1) (r + 1) u).2) := by
  have hmr := makeRequest_non2xx (env i) u resp hd hb hn hst
  refine ⟨hmr, ?_⟩
  rw [pollLoop_fail_step maxR env fuel i r u
    ("http error " ++ toString resp.statusCode ++ ": " ++ resp.body)
    hc (by rw [hmr]) hbud hs, hmr]

theorem pollLoop_non2xx_is_failure_witness :
    makeRequest (succEnv ⟨500, "oops"⟩ ⟨"", true, none⟩) "u" =
      (.error ("http error " ++ toString (500 : Int) ++ ": " ++ "oops"),
        [.request "u", .bodyClose ⟨500, "oops"⟩]) ∧
      pollLoop (-1) (fun _ => succEnv ⟨500, "oops"⟩ ⟨"", true, none⟩) 1 0 0 "u" =
        ((pollLoop (-1) (fun _ => succEnv ⟨500, "oops"⟩ ⟨"", true, none⟩) 0 1 1 "u").1,
          [.request "u", .bodyClose ⟨500, "oops"⟩] ++
            (pollLoop (-1) (fun _ => succEnv ⟨500, "oops"⟩ ⟨"", true, none⟩) 0 1 1 "u").2) :=
  pollLoop_non2xx_is_failure (-1) (fun _ => succEnv ⟨500, "oops"⟩ ⟨"", true, none⟩)
    0 0 0 "u" ⟨500, "oops"⟩ (by norm_num) rfl rfl rfl rfl rfl (by norm_num)

/-- C10: on every run, every handler invocation in the trace is immediately
followed by the Close of that same response's body (so the body is released
after the handler returns, both on the handler-error path and on the normal
path); and on the non-success-status path the body close is emitted inside
makeRequest, before its error is returned. -/
theorem pollLoop_bodies_released (maxR : Int) (env : Nat → IterEnv)
    (fuel i r : Nat) (u u2 : String) (e2 : IterEnv) (resp : Response)
    (hd : e2.doResult = .ok resp) (hb : e2.buildErr = none)
    (hn : e2.newReqErr = none)
    (hst : resp.statusCode < 200 ∨ 300 ≤ resp.statusCode) :
    handlerFollowedByClose (pollLoop maxR env fuel i r u).2 = true ∧
      makeRequest e2 u2 =
        (.error ("http error " ++ toString resp.statusCode ++ ": " ++ resp.body),
          [.request u2, .bodyClose resp]) :=
  ⟨pollLoop_hfc maxR env fuel i r u, makeRequest_non2xx e2 u2 resp hd hb hn hst⟩

theorem pollLoop_bodies_released_witness :
    handlerFollowedByClose
        (pollLoop (2 : Int)
          (fun j => if j = 0 then succEnv ⟨200, "b"⟩ ⟨"", true, none⟩
            else failEnv (toString j)) 5 0 0 "u").2 = true ∧
      makeRequest (succEnv ⟨404, "missing"⟩ ⟨"", true, none⟩) "w" =
        (.error ("http error " ++ toString (404 : Int) ++ ": " ++ "missing"),
          [.request "w", .bodyClose ⟨404, "missing"⟩]) :=
  pollLoop_bodies_released (2 : Int)
    (fun j => if j = 0 then succEnv ⟨200, "b"⟩ ⟨"", true, none⟩
      else failEnv (toString j)) 5 0 0 "u" "w"
    (succEnv ⟨404, "missing"⟩ ⟨"", true, none⟩) ⟨404, "missing"⟩
    rfl rfl rfl (by norm_num)

/-- C8: Poll registers a session before entering the loop and deregisters
it when the loop returns, so after any collection of distinct sessions has
started and any subcollection of them has returned, a session is in the
registry's active map iff it started and has not returned, and ActiveCount
is the number started minus the number returned. -/
theorem poll_registry_invariant (started returned : List Nat)
    (hnds : started.Nodup) (hndr : returned.Nodup)
    (hsub : ∀ x, x ∈ returned → x ∈ started) :
    (∀ pc, pc ∈ (registryAfter started returned).active ↔
        (pc ∈ started ∧ pc ∉ returned)) ∧
      activeCount (registryAfter started returned) =
        started.length - returned.length := by
  have hact := registryAfter_active started returned
  constructor
  · intro pc
    rw [hact]
    simp
  · unfold activeCount
    rw [hact]
    have hsubf : returned.toFinset ⊆ started.toFinset := by
      intro x hx
      simp only [List.mem_toFinset] at hx ⊢
      exact hsub x hx
    rw [Finset.card_sdiff hsubf, List.toFinset_card_of_nodup hnds,
      List.toFinset_card_of_nodup hndr]

theorem poll_registry_invariant_witness :
    (∀ pc, pc ∈ (registryAfter [0, 1, 2] [1]).active ↔
        (pc ∈ [0, 1, 2] ∧ pc ∉ [1])) ∧
      activeCount (registryAfter [0, 1, 2] [1]) = [0, 1, 2].length - [1].length :=
  poll_registry_invariant [0, 1, 2] [1] (by decide) (by decide) (by decide)

/-- C3: a successful exchange resets the consecutive-failure counter: in the
run that fails at attempt 1, succeeds at attempt 2 with a continuing
handler, and fails from attempt 3 on, the loop with budget N ≥ 1 returns
the retry-exhaustion error wrapping the failure of attempt N+3 after
exactly N+3 attempts — N+1 attempts after the success, exactly as in a
fresh session, the pre-success failure not counting. -/
theorem pollLoop_counter_reset (N : Nat) (m : Nat → String) (resp : Response)
    (u : String) (hN : 1 ≤ N)
    (h2 : 200 ≤ resp.statusCode) (h3 : resp.statusCode < 300) :
    (pollLoop (N : Int) (resetScenarioEnv m resp) (N + 3) 0 0 u).1 =
        some (.error (.maxRetriesExceeded ("http request: " ++ m (N + 2)))) ∧
      requestURLs (pollLoop (N : Int) (resetScenarioEnv m resp) (N + 3) 0 0 u).2 =
        List.replicate (N + 3) u := by
  have hb0 : ¬((0 : Int) ≤ (N : Int) ∧ ((0 : Nat) : Int) ≥ (N : Int)) := by omega
  have e0 := pollLoop_fail_step (N : Int) (resetScenarioEnv m resp) (N + 2) 0 0 u
    ("http request: " ++ m 0) rfl rfl hb0 rfl
  have hst : ¬(resp.statusCode < 200 ∨ 300 ≤ resp.statusCode) := by omega
  have hok : (makeRequest (resetScenarioEnv m resp 1) u).1 = .ok resp := by
    have h : resetScenarioEnv m resp 1 = succEnv resp ⟨"", true, none⟩ := rfl
    rw [h]
    simp [makeRequest, succEnv, hst]
  have e1 := pollLoop_continue_step (N : Int) (resetScenarioEnv m resp) (N + 1) 1 1 u
    resp "" rfl hok rfl rfl
  have hif : (if ("" : String) ≠ "" then ("" : String) else u) = u := by simp
  rw [hif] at e1
  have henv2 : ∀ j, 2 ≤ j → resetScenarioEnv m resp j = failEnv (m j) := by
    intro j hj
    unfold resetScenarioEnv
    rw [if_neg (by omega)]
  have htail := pollLoop_allFail N (resetScenarioEnv m resp)
    (fun j => "http request: " ++ m j) u 2
    (fun j hj => by rw [henv2 j hj]; rfl)
    (fun j hj => by rw [henv2 j hj]; rfl)
    (fun j hj => by rw [henv2 j hj]; rfl)
    (fun j hj => by rw [henv2 j hj]; rfl)
    N 2 0 (by omega) (by omega)
  obtain ⟨t1, t2, -⟩ := htail
  have hidx : 2 + N = N + 2 := by omega
  rw [hidx] at t1
  have hmr1 := makeRequest_ok_eq (resetScenarioEnv m resp 1) u resp hok
  constructor
  · rw [e0]
    show (pollLoop (N : Int) (resetScenarioEnv m resp) (N + 2) 1 1 u).1 = _
    rw [e1]
    exact t1
  · rw [e0]
    show requestURLs ((makeRequest (resetScenarioEnv m resp 0) u).2 ++
      (pollLoop (N : Int) (resetScenarioEnv m resp) (N + 2) 1 1 u).2) = _
    rw [e1]
    have hmr0 : (makeRequest (resetScenarioEnv m resp 0) u).2 = [.request u] := rfl
    rw [hmr0, hmr1]
    simp only [requestURLs_append, requestURLs, List.cons_append, List.nil_append,
      List.replicate_succ]
    show u :: u :: requestURLs
        (pollLoop (N : Int) (resetScenarioEnv m resp) (N + 1) 2 0 u).2 =
      u :: u :: u :: List.replicate N u
    rw [t2]
    rw [List.replicate_succ]

theorem pollLoop_counter_reset_witness :
    (pollLoop ((1 : Nat) : Int) (resetScenarioEnv toString ⟨200, "b"⟩) 4 0 0 "u").1 =
        some (.error (.maxRetriesExceeded ("http request: " ++ toString 3))) ∧
      requestURLs (pollLoop ((1 : Nat) : Int)
          (resetScenarioEnv toString ⟨200, "b"⟩) 4 0 0 "u").2 =
        List.replicate 4 "u" :=
  pollLoop_counter_reset 1 toString ⟨200, "b"⟩ "u" (by norm_num)
    (by norm_num) (by norm_num)

end Longpoll
